import Mathlib

set_option maxHeartbeats 1000000

/-!
Shallow embedding of the Fake-News-Detector pipeline.

Source files embedded here:
* `src/utils.py`    — `validate_input`
* `src/analyzer.py` — `NewsAnalyzer._parse_analysis`, `NewsAnalyzer._validate_analysis`,
  `NewsAnalyzer.analyze_claim`
* `src/scraper.py`  — `GoogleSearchScraper.search` and its four source steps

Python strings are modelled as `List Char`; Python dicts (the parsed JSON
analysis) as ordered association lists `List (String × JVal)`; code that can
raise is modelled in `Except`.  External effects (the generative-model call,
the structured-search API response, the HTML pages fetched by the two scrape
steps, and `json.loads`) are inputs of the embedded functions, universally
quantified in the theorems.
-/

/-- Python strings, modelled as lists of characters. -/
abbrev Str := List Char

/-- Values that can appear in a parsed JSON document (`json.loads` output). -/
inductive JVal where
  | jnull
  | jbool (b : Bool)
  | jint (n : Int)
  | jfloat (q : Rat)
  | jstr (s : Str)
  | jarr (xs : List JVal)
  | jobj (fields : List (String × JVal))

/-- A Python dict with string keys, as an ordered association list
(insertion order preserved, keys unique in any dict produced by `json.loads`). -/
abbrev Dict := List (String × JVal)

/-- `d[k]` / `k in d`: first binding of `k`, if any. -/
def pyLookup (k : String) : Dict → Option JVal
  | [] => none
  | (k', v) :: t => if k' = k then some v else pyLookup k t

/-- `d[k] = v`: replace the first binding of `k` in place, else append
(Python dict assignment semantics). -/
def pySetKey (k : String) (v : JVal) : Dict → Dict
  | [] => [(k, v)]
  | (k', v') :: t => if k' = k then (k', v) :: t else (k', v') :: pySetKey k v t

/-- The characters removed by Python `str.strip()` (ASCII whitespace). -/
def isPyWs (c : Char) : Bool :=
  c = ' ' || c = '\t' || c = '\n' || c = '\x0d' || c = '\x0b' || c = '\x0c'

/-- Python `s.strip()`: drop whitespace from both ends. -/
def pyStrip (s : Str) : Str :=
  ((s.dropWhile isPyWs).reverse.dropWhile isPyWs).reverse

/-- Digit run accumulator for `pyInt`: Python `int()` accepts single
underscores between digits. -/
def pyDigitsGo (acc : Nat) : Str → Option Nat
  | [] => some acc
  | '_' :: c :: t =>
    if c.isDigit then pyDigitsGo (acc * 10 + (c.toNat - 48)) t else none
  | '_' :: [] => none
  | c :: t =>
    if c.isDigit then pyDigitsGo (acc * 10 + (c.toNat - 48)) t else none

/-- A non-empty digit run, with single underscores allowed between digits. -/
def pyDigits : Str → Option Nat
  | [] => none
  | '_' :: _ => none
  | c :: t => if c.isDigit then pyDigitsGo (c.toNat - 48) t else none

/-- Python `int(s)` on a string: strip whitespace, optional sign, digits;
`none` models `ValueError`. -/
def pyInt (s : Str) : Option Int :=
  match pyStrip s with
  | '+' :: r => (pyDigits r).map Int.ofNat
  | '-' :: r => (pyDigits r).map fun n => -(n : Int)
  | r => (pyDigits r).map Int.ofNat

/-- First index `i` with `pat` a prefix of `s.drop i` (Python `s.find(pat)`
when wrapped by `pyFind`). -/
def firstOcc (pat : Str) : Str → Option Nat
  | [] => if pat.isPrefixOf [] then some 0 else none
  | c :: t =>
    if pat.isPrefixOf (c :: t) then some 0 else (firstOcc pat t).map (· + 1)

/-- Last index `i` with `pat` a prefix of `s.drop i` (Python `s.rfind(pat)`
when wrapped by `pyRFind`). -/
def lastOcc (pat : Str) : Str → Option Nat
  | [] => if pat.isPrefixOf [] then some 0 else none
  | c :: t =>
    match lastOcc pat t with
    | some k => some (k + 1)
    | none => if pat.isPrefixOf (c :: t) then some 0 else none

/-- Python `s.find(pat)`: first occurrence index, `-1` if absent. -/
def pyFind (pat s : Str) : Int :=
  match firstOcc pat s with
  | some k => (k : Int)
  | none => -1

/-- Python `s.find(pat, start)`: first occurrence at index `≥ start`,
`-1` if absent. -/
def pyFindFrom (pat s : Str) (start : Nat) : Int :=
  match firstOcc pat (s.drop start) with
  | some k => ((start + k : Nat) : Int)
  | none => -1

/-- Python `s.rfind(pat)`: last occurrence index, `-1` if absent. -/
def pyRFind (pat s : Str) : Int :=
  match lastOcc pat s with
  | some k => (k : Int)
  | none => -1

/-- Python `pat in s` (substring containment). -/
def pyContains (pat s : Str) : Bool :=
  (firstOcc pat s).isSome

/-- Resolve one Python slice bound against a string of length `n`
(negative indices count from the end; out-of-range bounds are clamped). -/
def sliceIdx (n : Nat) (i : Int) : Nat :=
  if i < 0 then (if i + n < 0 then 0 else min (i + n).toNat n)
  else min i.toNat n

/-- Python `s[a:b]`. -/
def pySlice (s : Str) (a b : Int) : Str :=
  (s.take (sliceIdx s.length b)).drop (sliceIdx s.length a)

/-- The opening-brace character (`\x7b`). -/
def openBrace : Char := '\x7b'

/-- The closing-brace character (`\x7d`). -/
def closeBrace : Char := '\x7d'

/-- The fenced-JSON marker searched for by `_parse_analysis`. -/
def jsonMarker : Str := "```json".toList

/-- A plain code fence. -/
def codeFence : Str := "```".toList

/-- Embeds the JSON-extraction step of `NewsAnalyzer._parse_analysis`
(src/analyzer.py lines 128-139): choose the substring handed to
`json.loads`, trying the fenced block, then the first-`{`-to-last-`}`
span, then the whole text. -/
def extract_json (text : Str) : Str :=
  if pyContains jsonMarker text then
    pyStrip (pySlice text (pyFind jsonMarker text + 7)
      (pyFindFrom codeFence text (pyFind jsonMarker text + 7).toNat))
  else if pyContains [openBrace] text && pyContains [closeBrace] text then
    pySlice text (pyFind [openBrace] text) (pyRFind [closeBrace] text + 1)
  else text

/-- Dict key `"credibility_score"`. -/
def kCredibility : String := "credibility_score"

/-- Dict key `"verdict"`. -/
def kVerdict : String := "verdict"

/-- Dict key `"confidence"`. -/
def kConfidence : String := "confidence"

/-- Dict key `"explanation"`. -/
def kExplanation : String := "explanation"

/-- Dict key `"key_findings"`. -/
def kKeyFindings : String := "key_findings"

/-- Dict key `"red_flags"`. -/
def kRedFlags : String := "red_flags"

/-- Dict key `"supporting_evidence"`. -/
def kSupporting : String := "supporting_evidence"

/-- The `defaults` dict of `NewsAnalyzer._validate_analysis`
(src/analyzer.py lines 161-169), in insertion order. -/
def defaultsList : List (String × JVal) :=
  [(kCredibility, .jint 5),
   (kVerdict, .jstr "Uncertain".toList),
   (kConfidence, .jstr "Medium".toList),
   (kExplanation, .jstr "Analysis could not be completed".toList),
   (kKeyFindings, .jarr []),
   (kRedFlags, .jarr []),
   (kSupporting, .jarr [])]

/-- One iteration of the default-merging loop: fill `kv` only if its key is
absent. -/
def fillStep (acc : Dict) (kv : String × JVal) : Dict :=
  if (pyLookup kv.1 acc).isSome then acc else pySetKey kv.1 kv.2 acc

/-- The default-merging loop of `_validate_analysis`
(src/analyzer.py lines 172-174). -/
def fillDefaults (d : Dict) : Dict :=
  defaultsList.foldl fillStep d

/-- Python `min(10, x)`: raises `TypeError` (modelled as `.error`) unless
`x` is numeric; returns `x` itself when `x < 10`, else the int `10`. -/
def pyMin10 : JVal → Except Str JVal
  | .jint n => .ok (if n < 10 then .jint n else .jint 10)
  | .jfloat q => .ok (if q < 10 then .jfloat q else .jint 10)
  | .jbool b => .ok (.jbool b)
  | _ => .error "TypeError: unorderable types".toList

/-- Python `max(0, x)` for numeric `x`: returns `x` itself when `x > 0`,
else the int `0`. -/
def pyMax0 : JVal → JVal
  | .jint n => if 0 < n then .jint n else .jint 0
  | .jfloat q => if 0 < q then .jfloat q else .jint 0
  | .jbool b => if b then .jbool true else .jint 0
  | v => v

/-- The string-to-int coercion of `_validate_analysis`
(src/analyzer.py lines 178-182): a string score is parsed with `int()`,
falling back to 5 on `ValueError`; any other value is left as is. -/
def coerceScore : JVal → JVal
  | .jstr s =>
    match pyInt s with
    | some n => .jint n
    | none => .jint 5
  | v => v

/-- Embeds `NewsAnalyzer._validate_analysis` (src/analyzer.py lines 159-185):
fill missing keys from `defaultsList`, then coerce and clamp
`credibility_score`; `.error` models the `TypeError` that
`max(0, min(10, score))` raises on a non-numeric score. -/
def validate_analysis (d : Dict) : Except Str Dict :=
  match pyMin10 (coerceScore ((pyLookup kCredibility (fillDefaults d)).getD
      (.jint 5))) with
  | .error e => .error e
  | .ok m => .ok (pySetKey kCredibility (pyMax0 m) (fillDefaults d))

/-- The non-JSON fallback record of `_parse_analysis`
(src/analyzer.py lines 149-157), with the raw response text as explanation. -/
def uncertainRecord (text : Str) : Dict :=
  [(kCredibility, .jint 5),
   (kVerdict, .jstr "Uncertain".toList),
   (kExplanation, .jstr text),
   (kConfidence, .jstr "Medium".toList),
   (kKeyFindings, .jarr []),
   (kRedFlags, .jarr []),
   (kSupporting, .jarr [])]

/-- Embeds `NewsAnalyzer._parse_analysis` (src/analyzer.py lines 126-157).
`jp` abstracts `json.loads` on the extracted substring: `none` is a
`JSONDecodeError` (caught, yielding `uncertainRecord`); a non-dict value
makes the subsequent key tests/assignments raise (`.error`), which the
method does not catch; a dict is validated. -/
def parse_analysis (jp : Str → Option JVal) (text : Str) : Except Str Dict :=
  match jp (extract_json text) with
  | none => .ok (uncertainRecord text)
  | some (.jobj d) => validate_analysis d
  | some _ => .error "TypeError: analysis is not a dict".toList

/-- One evidence record (`title` / `link` / `snippet`); fields are `Option`
because the structured-search step stores `item.get(...)`, which can be
`None`. -/
structure SearchResult where
  title : Option Str
  link : Option Str
  snippet : Option Str
deriving DecidableEq

/-- The degraded record built in the `except` branch of
`NewsAnalyzer.analyze_claim` (src/analyzer.py lines 74-79). -/
def failureRecord (e : Str) : Dict :=
  [(kCredibility, .jint 0),
   (kVerdict, .jstr "Analysis Failed".toList),
   (kExplanation, .jstr ("Could not complete analysis: ".toList ++ e)),
   (kConfidence, .jstr "Low".toList)]

/-- Embeds `NewsAnalyzer.analyze_claim` (src/analyzer.py lines 25-79).
`modelOutcome` abstracts the chat-completion call together with every step
before parsing: `.ok text` is the response content, `.error e` any raised
exception.  The surrounding `try/except Exception` turns every failure —
including those raised inside `_parse_analysis` by `_validate_analysis` —
into `failureRecord`; the function is total (never raises). -/
def analyze_claim (modelOutcome : Except Str Str) (jp : Str → Option JVal)
    (claim : Str) (searchResults : List SearchResult) : Dict :=
  match modelOutcome with
  | .error e => failureRecord e
  | .ok text =>
    match parse_analysis jp text with
    | .ok d => d
    | .error e => failureRecord e

/-- Embeds `validate_input` (src/utils.py lines 9-25): reject an empty or
short-after-strip claim, then reject claims with no ASCII alphanumeric
character. -/
def validate_input (claim : Str) : Bool :=
  if claim = [] ∨ (pyStrip claim).length < 10 then false
  else if ¬ claim.any (fun c => c.isAlpha || c.isDigit) then false
  else true

/-- One item of the structured-search API response; fields are the values
`item.get('title')`, `item.get('link')`, `item.get('snippet')` read by
`_use_google_custom_search`, `none` when the item lacks the key. -/
structure CItem where
  title : Option Str
  link : Option Str
  snippet : Option Str
deriving DecidableEq

/-- Embeds `GoogleSearchScraper._use_google_custom_search`
(src/scraper.py lines 48-71): one record per response item, in order.
`limit` is only forwarded to the remote service (as `num=`); the loop
itself never truncates the item list. -/
def use_google_custom_search (items : List CItem) (limit : Nat) :
    List SearchResult :=
  let _ := limit
  items.map fun it => { title := it.title, link := it.link, snippet := it.snippet }

/-- One candidate result block (`div.g` etc.) of the scraped Google page,
as seen by `_search_google_simple`: the first title text resolved by the
selector list (`none` if no selector matched), the `href` of the first
anchor (`none` if the block has no anchor; `get('href','')` otherwise),
and the first snippet text (empty if none matched). -/
structure GBlock where
  title : Option Str
  href : Option Str
  snippet : Str
deriving DecidableEq

/-- The collection loop of `_search_google_simple`
(src/scraper.py lines 94-130): stop once `limit` records are collected;
skip blocks without a title; keep a block only if title and link are
non-empty and the link contains `"http"`; replace an empty snippet with a
placeholder mentioning the query. -/
def gLoop (query : Str) (limit : Nat) :
    List GBlock → List SearchResult → List SearchResult
  | [], acc => acc
  | b :: bs, acc =>
    if limit ≤ acc.length then acc
    else
      match b.title with
      | none => gLoop query limit bs acc
      | some t =>
        if t = [] then gLoop query limit bs acc
        else
          match b.href with
          | none => gLoop query limit bs acc
          | some l =>
            if l ≠ [] && pyContains "http".toList l then
              gLoop query limit bs (acc ++ [⟨some t, some l,
                some (if b.snippet = []
                  then "Information related to ".toList ++ query
                  else b.snippet)⟩])
            else gLoop query limit bs acc

/-- Embeds `GoogleSearchScraper._search_google_simple`
(src/scraper.py lines 73-134).  The HTTP exchange is an input: `none`
models a raised exception (caught, yielding `[]`); otherwise the status
code and the parsed result blocks.  A non-200 status also yields `[]`. -/
def search_google_simple (page : Option (Nat × List GBlock)) (query : Str)
    (limit : Nat) : List SearchResult :=
  match page with
  | none => []
  | some (status, blocks) =>
    if status ≠ 200 then [] else gLoop query limit blocks []

/-- One candidate result block of the scraped DuckDuckGo page, as seen by
`_search_duckduckgo`: the title anchor (`none` if absent; else its text and
`get('href','')`), and the snippet text (`none` if the snippet anchor is
absent). -/
structure DBlock where
  anchor : Option (Str × Str)
  snippet : Option Str
deriving DecidableEq

/-- The collection loop of `_search_duckduckgo`
(src/scraper.py lines 155-178): stop at `limit`; skip blocks without a
title anchor; keep a block only if title and link are non-empty; replace
an empty snippet with a placeholder mentioning the query. -/
def dLoop (query : Str) (limit : Nat) :
    List DBlock → List SearchResult → List SearchResult
  | [], acc => acc
  | b :: bs, acc =>
    if limit ≤ acc.length then acc
    else
      match b.anchor with
      | none => dLoop query limit bs acc
      | some (t, l) =>
        if t ≠ [] && l ≠ [] then
          dLoop query limit bs (acc ++ [⟨some t, some l,
            some (if (b.snippet).getD [] = []
              then "Information about ".toList ++ query
              else (b.snippet).getD [])⟩])
        else dLoop query limit bs acc

/-- Embeds `GoogleSearchScraper._search_duckduckgo`
(src/scraper.py lines 136-182), with the HTTP exchange as an input, shaped
like `search_google_simple`. -/
def search_duckduckgo (page : Option (Nat × List DBlock)) (query : Str)
    (limit : Nat) : List SearchResult :=
  match page with
  | none => []
  | some (status, blocks) =>
    if status ≠ 200 then [] else dLoop query limit blocks []

/-- Embeds `GoogleSearchScraper._get_fallback_results`
(src/scraper.py lines 184-203): the fixed 3-item synthetic sequence. -/
def get_fallback_results (query : Str) : List SearchResult :=
  [⟨some ("Search result 1 for: ".toList ++ query),
    some "https://example.com/1".toList,
    some ("This would contain information about ".toList ++ query ++
      ". The actual search service is currently unavailable, but the analysis will still work based on the query.".toList)⟩,
   ⟨some ("Fact-check article about: ".toList ++ query),
    some "https://example.com/2".toList,
    some ("Various sources discuss ".toList ++ query ++
      ". Unable to retrieve actual search results at this time.".toList)⟩,
   ⟨some ("News article related to: ".toList ++ query),
    some "https://example.com/3".toList,
    some ("Recent developments regarding ".toList ++ query ++
      ". Search functionality limited but analysis can proceed.".toList)⟩]

/-- The external world observed by one `search` call: the structured-search
API outcome (`.error` models an exception raised by `build`/`execute`,
which `_use_google_custom_search` does not catch), and the two scraped
pages. -/
structure SearchEnv where
  custom : Except Str (List CItem)
  gpage : Option (Nat × List GBlock)
  dpage : Option (Nat × List DBlock)

/-- One `if not results: results = <alternative>` reassignment of `search`. -/
def pyOrElse (r alt : List SearchResult) : List SearchResult :=
  if r = [] then alt else r

/-- Embeds `GoogleSearchScraper.search` (src/scraper.py lines 19-46).
The local variable `results` is assigned only inside the
`if self.api_key and self.search_id:` branch; when either credential is
falsy the very next statement `if not results:` raises
`UnboundLocalError`, and an exception raised by the structured-search call
propagates — both modelled as `.error`.  The three reassignments
(lines 35-44) are the nested `pyOrElse` chain. -/
def search (api_key search_id : Str) (env : SearchEnv) (query : Str)
    (num_results : Nat) : Except Str (List SearchResult) :=
  if api_key ≠ [] ∧ search_id ≠ [] then
    match env.custom with
    | .error e => .error e
    | .ok items =>
      .ok (pyOrElse (pyOrElse (pyOrElse (use_google_custom_search items num_results)
            (search_google_simple env.gpage query num_results))
            (search_duckduckgo env.dpage query num_results))
            (get_fallback_results query))
  else .error "UnboundLocalError: local variable results referenced before assignment".toList

/-- The required keys of an analysis record, in the order of `defaultsList`. -/
def requiredKeys : List String :=
  [kCredibility, kVerdict, kConfidence, kExplanation, kKeyFindings, kRedFlags, kSupporting]

/-- Whether a dict binds every required analysis key. -/
def allKeysPresent (d : Dict) : Bool :=
  requiredKeys.all fun k => (pyLookup k d).isSome

/-- Numeric reading of a JSON value (Python treats `bool` as an `int`). -/
def numValue : JVal → Option Rat
  | .jint n => some (n : Rat)
  | .jfloat q => some q
  | .jbool b => some (if b then 1 else 0)
  | _ => none

/-- Look a key up in the dict produced by a fallible step (`none` when the
step raised). -/
def exLookup (k : String) : Except Str Dict → Option JVal
  | .ok d => pyLookup k d
  | .error _ => none

/-- Whether the `credibility_score` of the dict produced by a fallible step
is a number in `[0, 10]` (vacuously true when the step raised). -/
def scoreInRangeE : Except Str Dict → Bool
  | .error _ => true
  | .ok d =>
    match (pyLookup kCredibility d).bind numValue with
    | some q => decide (0 ≤ q) && decide (q ≤ 10)
    | none => false

/-! ### Dict-operation lemmas -/

theorem pyLookup_pySetKey (k k' : String) (v : JVal) (d : Dict) :
    pyLookup k (pySetKey k' v d) = if k' = k then some v else pyLookup k d := by
  induction d with
  | nil => by_cases h : k' = k <;> simp [pySetKey, pyLookup, h]
  | cons hd tl ih =>
    obtain ⟨k₀, v₀⟩ := hd
    by_cases h1 : k₀ = k' <;> by_cases h2 : k' = k <;> by_cases h3 : k₀ = k <;>
      simp_all [pySetKey, pyLookup]

theorem fillStep_some {k : String} {v : JVal} {acc : Dict} (kv : String × JVal)
    (h : pyLookup k acc = some v) : pyLookup k (fillStep acc kv) = some v := by
  unfold fillStep
  split
  · exact h
  · next hnone =>
    rw [pyLookup_pySetKey]
    split
    · next heq =>
      rw [heq, h] at hnone
      simp at hnone
    · exact h

theorem foldl_fillStep_some (kvs : List (String × JVal)) {k : String} {v : JVal}
    {d : Dict} (h : pyLookup k d = some v) :
    pyLookup k (kvs.foldl fillStep d) = some v := by
  induction kvs generalizing d with
  | nil => exact h
  | cons kv rest ih => exact ih (fillStep_some kv h)

theorem foldl_fillStep_isSome (kvs : List (String × JVal)) {k : String} {d : Dict}
    (h : (pyLookup k d).isSome) : (pyLookup k (kvs.foldl fillStep d)).isSome := by
  obtain ⟨v, hv⟩ := Option.isSome_iff_exists.mp h
  rw [foldl_fillStep_some kvs hv]
  rfl

theorem foldl_fillStep_sets (kvs : List (String × JVal)) (d : Dict)
    (kv : String × JVal) (hmem : kv ∈ kvs) :
    (pyLookup kv.1 (kvs.foldl fillStep d)).isSome := by
  induction kvs generalizing d with
  | nil => cases hmem
  | cons hd rest ih =>
    rcases List.mem_cons.mp hmem with heq | hmem'
    · subst heq
      rw [List.foldl_cons]
      apply foldl_fillStep_isSome
      unfold fillStep
      split
      · assumption
      · rw [pyLookup_pySetKey]
        simp
    · rw [List.foldl_cons]
      exact ih _ hmem'

theorem foldl_fillStep_sets_key (kvs : List (String × JVal)) (d : Dict)
    (k : String) (hmem : k ∈ kvs.map Prod.fst) :
    (pyLookup k (kvs.foldl fillStep d)).isSome := by
  obtain ⟨kv, hkv, hfst⟩ := List.mem_map.mp hmem
  subst hfst
  exact foldl_fillStep_sets kvs d kv hkv

theorem foldl_fillStep_sets_val (kvs : List (String × JVal)) {d : Dict}
    {kv : String × JVal} (hnd : (kvs.map Prod.fst).Nodup) (hmem : kv ∈ kvs)
    (habs : pyLookup kv.1 d = none) :
    pyLookup kv.1 (kvs.foldl fillStep d) = some kv.2 := by
  induction kvs generalizing d with
  | nil => cases hmem
  | cons hd rest ih =>
    rcases List.mem_cons.mp hmem with heq | hmem'
    · subst heq
      rw [List.foldl_cons]
      apply foldl_fillStep_some
      unfold fillStep
      rw [habs]
      simp [pyLookup_pySetKey]
    · have hne : hd.1 ≠ kv.1 := by
        intro h
        have hm : kv.1 ∈ rest.map Prod.fst := List.mem_map_of_mem _ hmem'
        rw [← h] at hm
        exact (List.nodup_cons.mp (by simpa using hnd)).1 hm
      have habs' : pyLookup kv.1 (fillStep d hd) = none := by
        unfold fillStep
        split
        · exact habs
        · rw [pyLookup_pySetKey, if_neg hne]
          exact habs
      rw [List.foldl_cons]
      exact ih (List.nodup_cons.mp (by simpa using hnd)).2 hmem' habs'

/-! ### Lemmas about `validate_analysis` -/

theorem validate_analysis_ok_shape {d : Dict} {d' : Dict}
    (h : validate_analysis d = .ok d') :
    ∃ m, pyMin10 (coerceScore ((pyLookup kCredibility (fillDefaults d)).getD
        (.jint 5))) = .ok m ∧
      d' = pySetKey kCredibility (pyMax0 m) (fillDefaults d) := by
  unfold validate_analysis at h
  split at h
  · exact absurd h (by simp)
  · next m hm =>
    refine ⟨m, hm, ?_⟩
    cases h
    rfl

theorem validate_preserve {d : Dict} {k : String} {v : JVal} {d' : Dict}
    (hk : k ≠ kCredibility) (hv : pyLookup k d = some v)
    (h : validate_analysis d = .ok d') : pyLookup k d' = some v := by
  obtain ⟨m, _, rfl⟩ := validate_analysis_ok_shape h
  rw [pyLookup_pySetKey, if_neg (Ne.symm hk)]
  exact foldl_fillStep_some _ hv

theorem validate_fill {d : Dict} {k : String} {dv : JVal} {d' : Dict}
    (hk : k ≠ kCredibility) (hmem : (k, dv) ∈ defaultsList)
    (habs : pyLookup k d = none) (h : validate_analysis d = .ok d') :
    pyLookup k d' = some dv := by
  obtain ⟨m, _, rfl⟩ := validate_analysis_ok_shape h
  rw [pyLookup_pySetKey, if_neg (Ne.symm hk)]
  exact foldl_fillStep_sets_val defaultsList (by decide) hmem habs

theorem validate_allKeys {d : Dict} {d' : Dict}
    (h : validate_analysis d = .ok d') : allKeysPresent d' = true := by
  obtain ⟨m, _, rfl⟩ := validate_analysis_ok_shape h
  unfold allKeysPresent requiredKeys
  simp only [List.all_cons, List.all_nil, Bool.and_eq_true, Bool.and_true]
  refine ⟨?_, ?_, ?_, ?_, ?_, ?_, ?_⟩ <;>
    rw [pyLookup_pySetKey] <;>
    first
      | simp
      | (rw [if_neg (by decide)]
         exact foldl_fillStep_sets_key defaultsList _ _ (by decide))

theorem pyMin10_ok_le {v m : JVal} (h : pyMin10 v = .ok m) :
    ∃ q, numValue m = some q ∧ q ≤ 10 := by
  cases v with
  | jint n =>
    simp only [pyMin10, Except.ok.injEq] at h
    subst h
    split
    · next hlt =>
      exact ⟨(n : Rat), rfl, by exact_mod_cast le_of_lt hlt⟩
    · exact ⟨10, rfl, le_refl _⟩
  | jfloat q =>
    simp only [pyMin10, Except.ok.injEq] at h
    subst h
    split
    · next hlt => exact ⟨q, rfl, le_of_lt hlt⟩
    · exact ⟨10, rfl, le_refl _⟩
  | jbool b =>
    simp only [pyMin10, Except.ok.injEq] at h
    subst h
    refine ⟨if b then 1 else 0, rfl, ?_⟩
    split <;> norm_num
  | jnull => simp [pyMin10] at h
  | jstr s => simp [pyMin10] at h
  | jarr xs => simp [pyMin10] at h
  | jobj fs => simp [pyMin10] at h

theorem pyMax0_range {m : JVal} {q : Rat} (hq : numValue m = some q)
    (hle : q ≤ 10) : ∃ q', numValue (pyMax0 m) = some q' ∧ 0 ≤ q' ∧ q' ≤ 10 := by
  cases m with
  | jint n =>
    simp only [numValue, Option.some.injEq] at hq
    subst hq
    by_cases hpos : 0 < n
    · refine ⟨(n : Rat), by simp [pyMax0, hpos, numValue],
        by exact_mod_cast le_of_lt hpos, hle⟩
    · exact ⟨0, by simp [pyMax0, hpos, numValue], le_refl _, by norm_num⟩
  | jfloat q0 =>
    simp only [numValue, Option.some.injEq] at hq
    subst hq
    by_cases hpos : 0 < q0
    · exact ⟨q0, by simp [pyMax0, hpos, numValue], le_of_lt hpos, hle⟩
    · exact ⟨0, by simp [pyMax0, hpos, numValue], le_refl _, by norm_num⟩
  | jbool b =>
    cases b with
    | true => exact ⟨1, by simp [pyMax0, numValue], by norm_num, by norm_num⟩
    | false => exact ⟨0, by simp [pyMax0, numValue], le_refl _, by norm_num⟩
  | jnull => simp [numValue] at hq
  | jstr s => simp [numValue] at hq
  | jarr xs => simp [numValue] at hq
  | jobj fs => simp [numValue] at hq

theorem validate_score_range (d : Dict) :
    scoreInRangeE (validate_analysis d) = true := by
  cases h : validate_analysis d with
  | error e => rfl
  | ok d' =>
    obtain ⟨m, hm, rfl⟩ := validate_analysis_ok_shape h
    obtain ⟨q, hq, hle⟩ := pyMin10_ok_le hm
    obtain ⟨q', hq', h0, h10⟩ := pyMax0_range hq hle
    have hbind : (pyLookup kCredibility
        (pySetKey kCredibility (pyMax0 m) (fillDefaults d))).bind numValue
        = some q' := by
      rw [pyLookup_pySetKey, if_pos rfl, Option.some_bind]
      exact hq'
    simp only [scoreInRangeE, hbind]
    rw [decide_eq_true h0, decide_eq_true h10]
    rfl

/-! ### Substring-occurrence lemmas (`firstOcc` / `lastOcc`) -/

theorem pfx_self_app (p r : Str) : p.isPrefixOf (p ++ r) = true := by
  induction p with
  | nil => cases r <;> rfl
  | cons c t ih => simp [List.isPrefixOf_cons₂, ih]

theorem firstOcc_some_intro {pat s : Str} {k : Nat}
    (h1 : pat.isPrefixOf (s.drop k) = true)
    (h2 : ∀ i, i < k → pat.isPrefixOf (s.drop i) = false) :
    firstOcc pat s = some k := by
  induction s generalizing k with
  | nil =>
    cases k with
    | zero =>
      rw [List.drop_zero] at h1
      simp [firstOcc, h1]
    | succ j =>
      have h0 := h2 0 (Nat.succ_pos j)
      rw [List.drop_zero] at h0
      rw [List.drop_nil] at h1
      rw [h1] at h0
      cases h0
  | cons c t ih =>
    cases k with
    | zero =>
      rw [List.drop_zero] at h1
      simp [firstOcc, h1]
    | succ j =>
      have h0 := h2 0 (Nat.succ_pos j)
      rw [List.drop_zero] at h0
      rw [List.drop_succ_cons] at h1
      have hrec : firstOcc pat t = some j :=
        ih h1 fun i hi => by
          have := h2 (i + 1) (Nat.succ_lt_succ hi)
          rwa [List.drop_succ_cons] at this
      simp [firstOcc, h0, hrec]

theorem firstOcc_none_intro {pat s : Str}
    (h : ∀ i, pat.isPrefixOf (s.drop i) = false) :
    firstOcc pat s = none := by
  induction s with
  | nil =>
    have h0 := h 0
    rw [List.drop_zero] at h0
    simp [firstOcc, h0]
  | cons c t ih =>
    have h0 := h 0
    rw [List.drop_zero] at h0
    have hrec : firstOcc pat t = none :=
      ih fun i => by
        have := h (i + 1)
        rwa [List.drop_succ_cons] at this
    simp [firstOcc, h0, hrec]

theorem firstOcc_none_elim {pat s : Str} (h : firstOcc pat s = none) :
    ∀ i, pat.isPrefixOf (s.drop i) = false := by
  induction s with
  | nil =>
    intro i
    rw [List.drop_nil]
    unfold firstOcc at h
    by_cases hp : pat.isPrefixOf [] = true
    · rw [if_pos hp] at h
      cases h
    · simp only [Bool.not_eq_true] at hp
      exact hp
  | cons c t ih =>
    unfold firstOcc at h
    by_cases hp : pat.isPrefixOf (c :: t) = true
    · rw [if_pos hp] at h
      cases h
    · rw [if_neg hp] at h
      intro i
      cases i with
      | zero =>
        rw [List.drop_zero]
        simp only [Bool.not_eq_true] at hp
        exact hp
      | succ j =>
        rw [List.drop_succ_cons]
        have hnone : firstOcc pat t = none := by
          cases heq : firstOcc pat t with
          | none => rfl
          | some m =>
            rw [heq] at h
            cases h
        exact ih hnone j

theorem firstOcc_isSome_of {pat s : Str} {k : Nat}
    (h : pat.isPrefixOf (s.drop k) = true) : (firstOcc pat s).isSome := by
  cases heq : firstOcc pat s with
  | some m => rfl
  | none =>
    rw [firstOcc_none_elim heq k] at h
    cases h

theorem lastOcc_none_intro {pat s : Str}
    (h : ∀ i, pat.isPrefixOf (s.drop i) = false) :
    lastOcc pat s = none := by
  induction s with
  | nil =>
    have h0 := h 0
    rw [List.drop_zero] at h0
    simp [lastOcc, h0]
  | cons c t ih =>
    have h0 := h 0
    rw [List.drop_zero] at h0
    have hrec : lastOcc pat t = none :=
      ih fun i => by
        have := h (i + 1)
        rwa [List.drop_succ_cons] at this
    simp [lastOcc, hrec, h0]

theorem lastOcc_some_intro {pat s : Str} {k : Nat}
    (h1 : pat.isPrefixOf (s.drop k) = true)
    (h2 : ∀ i, k < i → pat.isPrefixOf (s.drop i) = false) :
    lastOcc pat s = some k := by
  induction s generalizing k with
  | nil =>
    cases k with
    | zero =>
      rw [List.drop_zero] at h1
      simp [lastOcc, h1]
    | succ j =>
      have hk := h2 (j + 2) (by omega)
      rw [List.drop_nil] at h1 hk
      rw [h1] at hk
      cases hk
  | cons c t ih =>
    cases k with
    | zero =>
      rw [List.drop_zero] at h1
      have hnone : lastOcc pat t = none :=
        lastOcc_none_intro fun i => by
          have := h2 (i + 1) (Nat.succ_pos i)
          rwa [List.drop_succ_cons] at this
      simp [lastOcc, hnone, h1]
    | succ j =>
      rw [List.drop_succ_cons] at h1
      have hrec : lastOcc pat t = some j :=
        ih h1 fun i hi => by
          have := h2 (i + 1) (Nat.succ_lt_succ hi)
          rwa [List.drop_succ_cons] at this
      simp [lastOcc, hrec]

theorem pyContains_of_occ {pat s : Str} {k : Nat}
    (h : pat.isPrefixOf (s.drop k) = true) : pyContains pat s = true := by
  unfold pyContains
  cases heq : firstOcc pat s with
  | some m => rfl
  | none =>
    rw [firstOcc_none_elim heq k] at h
    cases h

theorem pyContains_false_intro {pat s : Str}
    (h : ∀ i, pat.isPrefixOf (s.drop i) = false) : pyContains pat s = false := by
  unfold pyContains
  rw [firstOcc_none_intro h]
  rfl

theorem single_pfx_iff {c : Char} {l : Str} :
    [c].isPrefixOf l = true ↔ ∃ t, l = c :: t := by
  cases l with
  | nil => simp [List.isPrefixOf]
  | cons x xs =>
    rw [List.isPrefixOf_cons₂]
    constructor
    · intro h
      have : c = x := by
        have hx : (c == x) = true := by
          cases hcx : c == x
          · rw [hcx] at h
            cases h
          · rfl
        exact eq_of_beq hx
      exact ⟨xs, by rw [this]⟩
    · rintro ⟨t, ht⟩
      cases ht
      simp [List.isPrefixOf]

theorem firstOcc_some_elim {pat s : Str} {k : Nat}
    (h : firstOcc pat s = some k) : pat.isPrefixOf (s.drop k) = true := by
  induction s generalizing k with
  | nil =>
    unfold firstOcc at h
    by_cases hp : pat.isPrefixOf [] = true
    · rw [if_pos hp] at h
      cases h
      rw [List.drop_nil]
      exact hp
    · rw [if_neg hp] at h
      cases h
  | cons c t ih =>
    unfold firstOcc at h
    by_cases hp : pat.isPrefixOf (c :: t) = true
    · rw [if_pos hp] at h
      cases h
      rw [List.drop_zero]
      exact hp
    · rw [if_neg hp] at h
      obtain ⟨j, hj, hk⟩ := Option.map_eq_some'.mp h
      subst hk
      rw [List.drop_succ_cons]
      exact ih hj

theorem pyContains_single_iff {c : Char} {s : Str} :
    pyContains [c] s = true ↔ c ∈ s := by
  constructor
  · intro h
    unfold pyContains at h
    cases heq : firstOcc [c] s with
    | none =>
      rw [heq] at h
      cases h
    | some k =>
      obtain ⟨t, ht⟩ := single_pfx_iff.mp (firstOcc_some_elim heq)
      have hmem : c ∈ s.drop k := by
        rw [ht]
        exact List.mem_cons_self c t
      exact List.mem_of_mem_drop hmem
  · intro h
    obtain ⟨a, b, rfl⟩ := List.append_of_mem h
    have hp : [c].isPrefixOf ((a ++ c :: b).drop a.length) = true := by
      have hd : (a ++ c :: b).drop a.length = c :: b := List.drop_left a (c :: b)
      rw [hd]
      simp [List.isPrefixOf]
    exact pyContains_of_occ hp

theorem nil_pfx (l : Str) : ([] : Str).isPrefixOf l = true := by
  cases l <;> rfl

theorem single_pfx_cons (ch : Char) (t : Str) : [ch].isPrefixOf (ch :: t) = true := by
  rw [List.isPrefixOf_cons₂]
  simp [nil_pfx]

theorem single_pfx_get {ch : Char} {s : Str} {i : Nat}
    (h : [ch].isPrefixOf (s.drop i) = true) : s[i]? = some ch := by
  obtain ⟨t, ht⟩ := single_pfx_iff.mp h
  have h0 : (s.drop i)[0]? = some ch := by rw [ht]; simp
  rw [List.getElem?_drop] at h0
  simpa using h0

/-! ### Python slice lemmas -/

theorem sliceIdx_nat (n x : Nat) (hx : x ≤ n) : sliceIdx n (x : Int) = x := by
  unfold sliceIdx
  rw [if_neg (by omega), Int.toNat_natCast]
  omega

theorem pySlice_nat (s : Str) (x y : Nat) (hx : x ≤ s.length)
    (hy : y ≤ s.length) : pySlice s (x : Int) (y : Int) = (s.take y).drop x := by
  unfold pySlice
  rw [sliceIdx_nat _ _ hx, sliceIdx_nat _ _ hy]

/-! ### The three extraction branches of `extract_json` -/

theorem extract_json_fence_case (a m r : Str)
    (h1 : ∀ i, i < a.length →
      jsonMarker.isPrefixOf ((a ++ jsonMarker ++ m ++ codeFence ++ r).drop i) = false)
    (h2 : ∀ j, j < m.length →
      codeFence.isPrefixOf
        ((a ++ jsonMarker ++ m ++ codeFence ++ r).drop (a.length + 7 + j)) = false) :
    extract_json (a ++ jsonMarker ++ m ++ codeFence ++ r) = pyStrip m := by
  set T := a ++ jsonMarker ++ m ++ codeFence ++ r with hT
  have h7 : jsonMarker.length = 7 := rfl
  have h3 : codeFence.length = 3 := rfl
  have hTr : T = a ++ (jsonMarker ++ (m ++ (codeFence ++ r))) := by
    rw [hT]
    simp [List.append_assoc]
  have hlenT : T.length = a.length + 7 + m.length + (3 + r.length) := by
    rw [hT]
    simp only [List.length_append, h7, h3]
    omega
  have hdropA : T.drop a.length = jsonMarker ++ (m ++ (codeFence ++ r)) := by
    rw [hTr]
    exact List.drop_left a _
  have hpfx1 : jsonMarker.isPrefixOf (T.drop a.length) = true := by
    rw [hdropA]
    exact pfx_self_app jsonMarker _
  have hfo : firstOcc jsonMarker T = some a.length := firstOcc_some_intro hpfx1 h1
  have hcont : pyContains jsonMarker T = true := by
    unfold pyContains
    rw [hfo]
    rfl
  have hpf : pyFind jsonMarker T = (a.length : Int) := by
    unfold pyFind
    rw [hfo]
  have hdrop7 : T.drop (a.length + 7) = m ++ (codeFence ++ r) := by
    rw [hTr, show (7 : Nat) = jsonMarker.length from rfl, List.drop_append,
      List.drop_left]
  have hfo2 : firstOcc codeFence (T.drop (a.length + 7)) = some m.length := by
    rw [hdrop7]
    apply firstOcc_some_intro
    · rw [List.drop_left]
      exact pfx_self_app codeFence r
    · intro i hi
      have hh := h2 i hi
      rw [← List.drop_drop, hdrop7] at hh
      exact hh
  have hff : pyFindFrom codeFence T (a.length + 7) = ((a.length + 7 + m.length : Nat) : Int) := by
    unfold pyFindFrom
    rw [hfo2]
  have hTassoc : T = ((a ++ jsonMarker) ++ m) ++ (codeFence ++ r) := by
    rw [hT]
    simp [List.append_assoc]
  have hslice : pySlice T ((a.length + 7 : Nat) : Int) ((a.length + 7 + m.length : Nat) : Int) = m := by
    rw [pySlice_nat T _ _ (by omega) (by omega)]
    rw [hTassoc, List.take_left' (by simp only [List.length_append, h7])]
    exact List.drop_left' (by simp only [List.length_append, h7])
  unfold extract_json
  rw [hcont, if_pos rfl, hpf]
  rw [show ((a.length : Int) + 7).toNat = a.length + 7 by omega]
  rw [hff]
  rw [show (a.length : Int) + 7 = ((a.length + 7 : Nat) : Int) by omega]
  rw [hslice]

theorem extract_json_braces_case (u v w : Str)
    (h0 : ∀ i, jsonMarker.isPrefixOf ((u ++ openBrace :: v ++ closeBrace :: w).drop i) = false)
    (hu : openBrace ∉ u) (hw : closeBrace ∉ w) :
    extract_json (u ++ openBrace :: v ++ closeBrace :: w)
      = openBrace :: (v ++ [closeBrace]) := by
  set T := u ++ openBrace :: v ++ closeBrace :: w with hT
  have hnc : pyContains jsonMarker T = false := pyContains_false_intro h0
  have hTr : T = u ++ (openBrace :: (v ++ closeBrace :: w)) := by
    rw [hT]
    simp [List.append_assoc]
  have hdropA : T.drop u.length = openBrace :: (v ++ closeBrace :: w) := by
    rw [hTr]
    exact List.drop_left u _
  have hfo1 : firstOcc [openBrace] T = some u.length := by
    apply firstOcc_some_intro
    · rw [hdropA]
      exact single_pfx_cons openBrace _
    · intro i hi
      cases hx : [openBrace].isPrefixOf (T.drop i) with
      | false => rfl
      | true =>
        exfalso
        have hget := single_pfx_get hx
        rw [hTr, List.getElem?_append, if_pos hi] at hget
        exact hu (List.getElem?_mem hget)
  have hdropP : T.drop (u.length + 1 + v.length) = closeBrace :: w := by
    rw [hTr, show u.length + 1 + v.length = u.length + (1 + v.length) by omega,
      List.drop_append, Nat.add_comm 1 v.length, List.drop_succ_cons,
      List.drop_left]
  have hfo2 : lastOcc [closeBrace] T = some (u.length + 1 + v.length) := by
    apply lastOcc_some_intro
    · rw [hdropP]
      exact single_pfx_cons closeBrace _
    · intro i hi
      cases hx : [closeBrace].isPrefixOf (T.drop i) with
      | false => rfl
      | true =>
        exfalso
        have hget := single_pfx_get hx
        have hdropP1 : T.drop (u.length + 1 + v.length + 1) = w := by
          rw [← List.drop_drop, hdropP]
          simp
        have hgw : w[i - (u.length + 1 + v.length + 1)]? = some closeBrace := by
          rw [← hdropP1, List.getElem?_drop,
            show u.length + 1 + v.length + 1 + (i - (u.length + 1 + v.length + 1)) = i by omega]
          exact hget
        exact hw (List.getElem?_mem hgw)
  have hccont1 : pyContains [openBrace] T = true := by
    unfold pyContains
    rw [hfo1]
    rfl
  have hccont2 : pyContains [closeBrace] T = true :=
    pyContains_of_occ (by rw [hdropP]; exact single_pfx_cons closeBrace _)
  have hpf : pyFind [openBrace] T = (u.length : Int) := by
    unfold pyFind
    rw [hfo1]
  have hprf : pyRFind [closeBrace] T = ((u.length + 1 + v.length : Nat) : Int) := by
    unfold pyRFind
    rw [hfo2]
  have hTassoc : T = (u ++ openBrace :: (v ++ [closeBrace])) ++ w := by
    rw [hT]
    simp
  have hlen : (u ++ openBrace :: (v ++ [closeBrace])).length = u.length + 1 + v.length + 1 := by
    simp only [List.length_append, List.length_cons, List.length_nil]
    omega
  have hlenT : u.length + 1 + v.length + 1 ≤ T.length := by
    rw [hTassoc, List.length_append, hlen]
    omega
  have hslice : pySlice T ((u.length : Nat) : Int) ((u.length + 1 + v.length + 1 : Nat) : Int)
      = openBrace :: (v ++ [closeBrace]) := by
    rw [pySlice_nat T _ _ (by omega) hlenT]
    rw [hTassoc, List.take_left' hlen]
    exact List.drop_left u _
  unfold extract_json
  rw [hnc]
  rw [if_neg (by simp)]
  rw [hccont1, hccont2]
  rw [if_pos (by rfl)]
  rw [hpf, hprf]
  rw [show ((u.length + 1 + v.length : Nat) : Int) + 1 = ((u.length + 1 + v.length + 1 : Nat) : Int) by omega]
  exact hslice

theorem extract_json_verbatim_case (t : Str)
    (h0 : ∀ i, jsonMarker.isPrefixOf (t.drop i) = false)
    (hb : openBrace ∉ t ∨ closeBrace ∉ t) :
    extract_json t = t := by
  have hnc : pyContains jsonMarker t = false := pyContains_false_intro h0
  have hbr : (pyContains [openBrace] t && pyContains [closeBrace] t) = false := by
    rcases hb with hob | hcb
    · have : pyContains [openBrace] t = false := by
        cases hx : pyContains [openBrace] t with
        | false => rfl
        | true => exact absurd (pyContains_single_iff.mp hx) hob
      rw [this, Bool.false_and]
    · have : pyContains [closeBrace] t = false := by
        cases hx : pyContains [closeBrace] t with
        | false => rfl
        | true => exact absurd (pyContains_single_iff.mp hx) hcb
      rw [this, Bool.and_false]
  unfold extract_json
  rw [hnc]
  rw [if_neg (by simp)]
  rw [hbr]
  rw [if_neg (by simp)]

/-! ### Length bounds for the scraping loops -/

theorem gLoop_len (query : Str) (limit : Nat) (bs : List GBlock) :
    ∀ acc : List SearchResult, acc.length ≤ limit →
      (gLoop query limit bs acc).length ≤ limit := by
  induction bs with
  | nil =>
    intro acc h
    simpa [gLoop] using h
  | cons b rest ih =>
    intro acc h
    rw [gLoop]
    split
    · exact h
    · next hlt =>
      have hlt' : acc.length < limit := Nat.lt_of_not_le hlt
      cases hb : b.title with
      | none => exact ih _ h
      | some t =>
        by_cases ht : t = []
        · simp only [if_pos ht]
          exact ih _ h
        · simp only [if_neg ht]
          cases hl : b.href with
          | none => exact ih _ h
          | some l =>
            dsimp only
            by_cases hcond : (decide (l ≠ []) && pyContains "http".toList l) = true
            · rw [if_pos hcond]
              apply ih
              simp only [List.length_append, List.length_cons, List.length_nil]
              omega
            · rw [if_neg hcond]
              exact ih _ h

theorem dLoop_len (query : Str) (limit : Nat) (bs : List DBlock) :
    ∀ acc : List SearchResult, acc.length ≤ limit →
      (dLoop query limit bs acc).length ≤ limit := by
  induction bs with
  | nil =>
    intro acc h
    simpa [dLoop] using h
  | cons b rest ih =>
    intro acc h
    rw [dLoop]
    split
    · exact h
    · next hlt =>
      have hlt' : acc.length < limit := Nat.lt_of_not_le hlt
      cases hb : b.anchor with
      | none => exact ih _ h
      | some tl =>
        obtain ⟨t, l⟩ := tl
        dsimp only
        by_cases hcond : (decide (t ≠ []) && decide (l ≠ [])) = true
        · rw [if_pos hcond]
          apply ih
          simp only [List.length_append, List.length_cons, List.length_nil]
          omega
        · rw [if_neg hcond]
          exact ih _ h

theorem search_google_simple_len (page : Option (Nat × List GBlock)) (query : Str)
    (limit : Nat) : (search_google_simple page query limit).length ≤ limit := by
  cases page with
  | none => exact Nat.zero_le limit
  | some p =>
    obtain ⟨status, blocks⟩ := p
    by_cases hs : status ≠ 200
    · simp [search_google_simple, hs]
    · simp only [search_google_simple, if_neg hs]
      exact gLoop_len query limit blocks [] (Nat.zero_le limit)

theorem search_duckduckgo_len (page : Option (Nat × List DBlock)) (query : Str)
    (limit : Nat) : (search_duckduckgo page query limit).length ≤ limit := by
  cases page with
  | none => exact Nat.zero_le limit
  | some p =>
    obtain ⟨status, blocks⟩ := p
    by_cases hs : status ≠ 200
    · simp [search_duckduckgo, hs]
    · simp only [search_duckduckgo, if_neg hs]
      exact dLoop_len query limit blocks [] (Nat.zero_le limit)

theorem pyOrElse_cases (r alt : List SearchResult) :
    pyOrElse r alt = alt ∨ (pyOrElse r alt = r ∧ r ≠ []) := by
  unfold pyOrElse
  by_cases h : r = []
  · left
    rw [if_pos h]
  · right
    exact ⟨if_neg h, h⟩

/-! ### Claim theorems -/

/-- C9: `validate_input` returns `false` exactly on claims that are empty,
whitespace-only, shorter than 10 characters after stripping, or free of
ASCII alphanumerics, and `true` otherwise; the listed concrete examples
behave as stated.  The embedding is a total function, so it never raises. -/
theorem validate_input_spec :
    validate_input "".toList = false ∧
    validate_input "   ".toList = false ∧
    validate_input "short".toList = false ∧
    validate_input "!!!!!!!!!!".toList = false ∧
    validate_input "1234567890".toList = true ∧
    ∀ s : Str, validate_input s = true ↔
      (10 ≤ (pyStrip s).length ∧ s.any (fun c => c.isAlpha || c.isDigit) = true) := by
  refine ⟨rfl, rfl, rfl, rfl, rfl, ?_⟩
  intro s
  unfold validate_input
  by_cases h1 : s = [] ∨ (pyStrip s).length < 10
  · rw [if_pos h1]
    simp only [Bool.false_eq_true, false_iff]
    rintro ⟨hlen, _⟩
    rcases h1 with h1 | h1
    · subst h1
      simp [pyStrip] at hlen
    · omega
  · rw [if_neg h1]
    push_neg at h1
    by_cases h2 : ¬ s.any (fun c => c.isAlpha || c.isDigit) = true
    · rw [if_pos h2]
      simp only [Bool.false_eq_true, false_iff]
      rintro ⟨_, hany⟩
      exact h2 hany
    · rw [if_neg h2]
      push_neg at h2
      exact ⟨fun _ => ⟨h1.2, h2⟩, fun _ => rfl⟩

/-- C6: normalization of `credibility_score`: integer 15 clamps to 10,
integer -3 clamps to 0, string `"7"` coerces to 7, a non-numeric string
falls back to the default 5; and on every successful validation the stored
score is a number in `[0, 10]`. -/
theorem credibility_normalization :
    exLookup kCredibility (validate_analysis [(kCredibility, .jint 15)])
      = some (.jint 10) ∧
    exLookup kCredibility (validate_analysis [(kCredibility, .jint (-3))])
      = some (.jint 0) ∧
    exLookup kCredibility (validate_analysis [(kCredibility, .jstr "7".toList)])
      = some (.jint 7) ∧
    exLookup kCredibility (validate_analysis [(kCredibility, .jstr "not a number".toList)])
      = some (.jint 5) ∧
    ∀ d : Dict, scoreInRangeE (validate_analysis d) = true :=
  ⟨rfl, rfl, rfl, rfl, validate_score_range⟩

/-- C2 (bug evidence): with no structured-search credentials configured the
local `results` is never assigned and `search` raises `UnboundLocalError`
instead of returning the fallback sequence; and an exception raised by the
structured-search call propagates out of `search` uncaught. -/
theorem search_raises_when_unconfigured :
    search [] [] ⟨.ok [], none, none⟩ "test claim".toList 5
      = .error "UnboundLocalError: local variable results referenced before assignment".toList ∧
    search "key".toList "id".toList ⟨.error "HttpError 403".toList, none, none⟩
      "test claim".toList 5
      = .error "HttpError 403".toList :=
  ⟨rfl, rfl⟩

/-- C1 (counterexample): on the internal-failure path the record returned
by `analyze_claim` has no `key_findings` binding at all, so the six-key
invariant fails on that path. -/
theorem failure_record_missing_list_keys :
    pyLookup kKeyFindings
      (analyze_claim (.error "boom".toList) (fun _ => none) "some claim".toList [])
      = none := rfl

/-- C1 (amended): every record produced through the response-parsing path
contains all required keys, for any model text and any parse outcome; the
internal-failure record instead carries exactly the four scalar keys
`credibility_score`, `verdict`, `explanation`, `confidence`. -/
theorem analyze_keys_amended :
    (∀ (jp : Str → Option JVal) (t : Str) (d : Dict),
      parse_analysis jp t = .ok d → allKeysPresent d = true) ∧
    (∀ (e : Str) (jp : Str → Option JVal) (claim : Str) (rs : List SearchResult),
      (analyze_claim (.error e) jp claim rs).map Prod.fst
        = [kCredibility, kVerdict, kExplanation, kConfidence]) := by
  constructor
  · intro jp t d h
    unfold parse_analysis at h
    cases hjp : jp (extract_json t) with
    | none =>
      rw [hjp] at h
      cases h
      rfl
    | some v =>
      rw [hjp] at h
      cases v with
      | jnull => simp at h
      | jbool b => simp at h
      | jint n => simp at h
      | jfloat q => simp at h
      | jstr s2 => simp at h
      | jarr xs => simp at h
      | jobj d0 => exact validate_allKeys h
  · intro e jp claim rs
    rfl

/-- C1 witness: a concrete run of the parsing path (empty model dict)
produces a record with all required keys. -/
theorem analyze_keys_amended_witness :
    allKeysPresent
      [(kCredibility, JVal.jint 5),
       (kVerdict, JVal.jstr "Uncertain".toList),
       (kConfidence, JVal.jstr "Medium".toList),
       (kExplanation, JVal.jstr "Analysis could not be completed".toList),
       (kKeyFindings, JVal.jarr []),
       (kRedFlags, JVal.jarr []),
       (kSupporting, JVal.jarr [])] = true :=
  analyze_keys_amended.1 (fun _ => some (.jobj [])) []
    [(kCredibility, JVal.jint 5),
     (kVerdict, JVal.jstr "Uncertain".toList),
     (kConfidence, JVal.jstr "Medium".toList),
     (kExplanation, JVal.jstr "Analysis could not be completed".toList),
     (kKeyFindings, JVal.jarr []),
     (kRedFlags, JVal.jarr []),
     (kSupporting, JVal.jarr [])] rfl

/-- C3: `analyze_claim` is a total function (the `try/except Exception`
catches every internal failure), and on both failure paths — the model
call raising, or parsing raising anything other than a JSON decode error —
the returned record has `credibility_score = 0`,
`verdict = "Analysis Failed"`, `confidence = "Low"`, and an explanation
describing the failure. -/
theorem analyze_claim_failure_record :
    (∀ (e : Str) (jp : Str → Option JVal) (claim : Str) (rs : List SearchResult),
      pyLookup kCredibility (analyze_claim (.error e) jp claim rs) = some (.jint 0) ∧
      pyLookup kVerdict (analyze_claim (.error e) jp claim rs)
        = some (.jstr "Analysis Failed".toList) ∧
      pyLookup kConfidence (analyze_claim (.error e) jp claim rs)
        = some (.jstr "Low".toList) ∧
      pyLookup kExplanation (analyze_claim (.error e) jp claim rs)
        = some (.jstr ("Could not complete analysis: ".toList ++ e))) ∧
    (∀ (jp : Str → Option JVal) (t claim : Str) (rs : List SearchResult) (e : Str),
      parse_analysis jp t = .error e →
      pyLookup kCredibility (analyze_claim (.ok t) jp claim rs) = some (.jint 0) ∧
      pyLookup kVerdict (analyze_claim (.ok t) jp claim rs)
        = some (.jstr "Analysis Failed".toList) ∧
      pyLookup kConfidence (analyze_claim (.ok t) jp claim rs)
        = some (.jstr "Low".toList) ∧
      pyLookup kExplanation (analyze_claim (.ok t) jp claim rs)
        = some (.jstr ("Could not complete analysis: ".toList ++ e))) := by
  constructor
  · intro e jp claim rs
    exact ⟨rfl, rfl, rfl, rfl⟩
  · intro jp t claim rs e h
    have hrec : analyze_claim (.ok t) jp claim rs = failureRecord e := by
      unfold analyze_claim
      dsimp only
      rw [h]
    rw [hrec]
    exact ⟨rfl, rfl, rfl, rfl⟩

/-- C3 witness: a parse stage that raises a non-decode error (a `TypeError`
from clamping a `null` score) yields the concrete degraded record. -/
theorem analyze_claim_failure_record_witness :
    pyLookup kCredibility
      (analyze_claim (.ok "resp".toList)
        (fun _ => some (.jobj [(kCredibility, JVal.jnull)])) "c".toList [])
      = some (.jint 0) ∧
    pyLookup kVerdict
      (analyze_claim (.ok "resp".toList)
        (fun _ => some (.jobj [(kCredibility, JVal.jnull)])) "c".toList [])
      = some (.jstr "Analysis Failed".toList) ∧
    pyLookup kConfidence
      (analyze_claim (.ok "resp".toList)
        (fun _ => some (.jobj [(kCredibility, JVal.jnull)])) "c".toList [])
      = some (.jstr "Low".toList) ∧
    pyLookup kExplanation
      (analyze_claim (.ok "resp".toList)
        (fun _ => some (.jobj [(kCredibility, JVal.jnull)])) "c".toList [])
      = some (.jstr ("Could not complete analysis: ".toList
          ++ "TypeError: unorderable types".toList)) :=
  analyze_claim_failure_record.2 (fun _ => some (.jobj [(kCredibility, JVal.jnull)]))
    "resp".toList "c".toList [] "TypeError: unorderable types".toList rfl

/-- C4 (counterexample): a model-supplied `confidence` outside
`{High, Medium, Low}` passes through the validator unchanged, so the claim
that no other value ever appears is false. -/
theorem confidence_passthrough_counterexample :
    pyLookup kConfidence
      (analyze_claim (.ok "resp".toList)
        (fun _ => some (.jobj [(kConfidence, .jstr "Banana".toList)]))
        "claim".toList [])
      = some (.jstr "Banana".toList) ∧
    ("Banana" ≠ "High" ∧ "Banana" ≠ "Medium" ∧ "Banana" ≠ "Low") :=
  ⟨rfl, by decide⟩

/-- C4 (amended): `confidence` defaults to `"Medium"` when the parsed dict
omits it, is `"Low"` on the internal-failure record and `"Medium"` on the
parse-fallback record, but a present parsed value is passed through
unvalidated. -/
theorem confidence_default_amended :
    (∀ (d : Dict) (d' : Dict), pyLookup kConfidence d = none →
      validate_analysis d = .ok d' →
      pyLookup kConfidence d' = some (.jstr "Medium".toList)) ∧
    (∀ (d : Dict) (v : JVal) (d' : Dict), pyLookup kConfidence d = some v →
      validate_analysis d = .ok d' → pyLookup kConfidence d' = some v) ∧
    (∀ (e : Str) (jp : Str → Option JVal) (claim : Str) (rs : List SearchResult),
      pyLookup kConfidence (analyze_claim (.error e) jp claim rs)
        = some (.jstr "Low".toList)) ∧
    (∀ (jp : Str → Option JVal) (t : Str), jp (extract_json t) = none →
      exLookup kConfidence (parse_analysis jp t) = some (.jstr "Medium".toList)) := by
  refine ⟨?_, ?_, ?_, ?_⟩
  · intro d d' habs h
    exact validate_fill (by decide)
      (List.mem_cons_of_mem _ (List.mem_cons_of_mem _ (List.mem_cons_self _ _)))
      habs h
  · intro d v d' hv h
    exact validate_preserve (by decide) hv h
  · intro e jp claim rs
    rfl
  · intro jp t h
    unfold parse_analysis
    rw [h]
    rfl

/-- C4 witness: at a concrete dict without `confidence` the default
`"Medium"` is filled; at one with `confidence = "Banana"` the value passes
through. -/
theorem confidence_default_amended_witness :
    pyLookup kConfidence
      [(kCredibility, JVal.jint 5),
       (kVerdict, JVal.jstr "Uncertain".toList),
       (kConfidence, JVal.jstr "Medium".toList),
       (kExplanation, JVal.jstr "Analysis could not be completed".toList),
       (kKeyFindings, JVal.jarr []),
       (kRedFlags, JVal.jarr []),
       (kSupporting, JVal.jarr [])] = some (.jstr "Medium".toList) ∧
    pyLookup kConfidence
      [(kConfidence, JVal.jstr "Banana".toList),
       (kCredibility, JVal.jint 5),
       (kVerdict, JVal.jstr "Uncertain".toList),
       (kExplanation, JVal.jstr "Analysis could not be completed".toList),
       (kKeyFindings, JVal.jarr []),
       (kRedFlags, JVal.jarr []),
       (kSupporting, JVal.jarr [])] = some (.jstr "Banana".toList) :=
  ⟨confidence_default_amended.1 []
    [(kCredibility, JVal.jint 5),
     (kVerdict, JVal.jstr "Uncertain".toList),
     (kConfidence, JVal.jstr "Medium".toList),
     (kExplanation, JVal.jstr "Analysis could not be completed".toList),
     (kKeyFindings, JVal.jarr []),
     (kRedFlags, JVal.jarr []),
     (kSupporting, JVal.jarr [])] rfl rfl,
   confidence_default_amended.2.1 [(kConfidence, JVal.jstr "Banana".toList)]
    (JVal.jstr "Banana".toList)
    [(kConfidence, JVal.jstr "Banana".toList),
     (kCredibility, JVal.jint 5),
     (kVerdict, JVal.jstr "Uncertain".toList),
     (kExplanation, JVal.jstr "Analysis could not be completed".toList),
     (kKeyFindings, JVal.jarr []),
     (kRedFlags, JVal.jarr []),
     (kSupporting, JVal.jarr [])] rfl rfl⟩

/-- C10: `_validate_analysis` rewrites only `credibility_score`: every
other key present in the parsed dict keeps its value verbatim, and the
documented defaults are written only to absent keys. -/
theorem validate_analysis_frame :
    (∀ (d : Dict) (k : String) (v : JVal) (d' : Dict), k ≠ kCredibility →
      pyLookup k d = some v → validate_analysis d = .ok d' →
      pyLookup k d' = some v) ∧
    (∀ (d : Dict) (k : String) (dv : JVal) (d' : Dict), k ≠ kCredibility →
      (k, dv) ∈ defaultsList → pyLookup k d = none →
      validate_analysis d = .ok d' → pyLookup k d' = some dv) :=
  ⟨fun _ _ _ _ hk hv h => validate_preserve hk hv h,
   fun _ _ _ _ hk hmem habs h => validate_fill hk hmem habs h⟩

/-- C10 witness: a model-supplied `verdict` survives validation verbatim,
and the absent `red_flags` key is filled with its default. -/
theorem validate_analysis_frame_witness :
    pyLookup kVerdict
      [(kVerdict, JVal.jstr "Totally credible".toList),
       (kCredibility, JVal.jint 5),
       (kConfidence, JVal.jstr "Medium".toList),
       (kExplanation, JVal.jstr "Analysis could not be completed".toList),
       (kKeyFindings, JVal.jarr []),
       (kRedFlags, JVal.jarr []),
       (kSupporting, JVal.jarr [])] = some (.jstr "Totally credible".toList) ∧
    pyLookup kRedFlags
      [(kVerdict, JVal.jstr "Totally credible".toList),
       (kCredibility, JVal.jint 5),
       (kConfidence, JVal.jstr "Medium".toList),
       (kExplanation, JVal.jstr "Analysis could not be completed".toList),
       (kKeyFindings, JVal.jarr []),
       (kRedFlags, JVal.jarr []),
       (kSupporting, JVal.jarr [])] = some (.jarr []) :=
  ⟨validate_analysis_frame.1 [(kVerdict, JVal.jstr "Totally credible".toList)]
    kVerdict (JVal.jstr "Totally credible".toList)
    [(kVerdict, JVal.jstr "Totally credible".toList),
     (kCredibility, JVal.jint 5),
     (kConfidence, JVal.jstr "Medium".toList),
     (kExplanation, JVal.jstr "Analysis could not be completed".toList),
     (kKeyFindings, JVal.jarr []),
     (kRedFlags, JVal.jarr []),
     (kSupporting, JVal.jarr [])] (by decide) rfl rfl,
   validate_analysis_frame.2 [(kVerdict, JVal.jstr "Totally credible".toList)]
    kRedFlags (JVal.jarr [])
    [(kVerdict, JVal.jstr "Totally credible".toList),
     (kCredibility, JVal.jint 5),
     (kConfidence, JVal.jstr "Medium".toList),
     (kExplanation, JVal.jstr "Analysis could not be completed".toList),
     (kKeyFindings, JVal.jarr []),
     (kRedFlags, JVal.jarr []),
     (kSupporting, JVal.jarr [])] (by decide)
    (List.mem_cons_of_mem _ (List.mem_cons_of_mem _ (List.mem_cons_of_mem _
      (List.mem_cons_of_mem _ (List.mem_cons_of_mem _ (List.mem_cons_self _ _))))))
    rfl rfl⟩

/-- C8: whenever JSON decoding of the extracted substring fails,
`_parse_analysis` returns the uncertain record whose explanation is the
raw response text verbatim, with score 5, verdict `"Uncertain"`,
confidence `"Medium"`, and the three list fields empty. -/
theorem parse_fallback_verbatim :
    ∀ (jp : Str → Option JVal) (t : Str), jp (extract_json t) = none →
      parse_analysis jp t = .ok (uncertainRecord t) ∧
      pyLookup kExplanation (uncertainRecord t) = some (.jstr t) ∧
      pyLookup kCredibility (uncertainRecord t) = some (.jint 5) ∧
      pyLookup kVerdict (uncertainRecord t) = some (.jstr "Uncertain".toList) ∧
      pyLookup kConfidence (uncertainRecord t) = some (.jstr "Medium".toList) ∧
      pyLookup kKeyFindings (uncertainRecord t) = some (.jarr []) ∧
      pyLookup kRedFlags (uncertainRecord t) = some (.jarr []) ∧
      pyLookup kSupporting (uncertainRecord t) = some (.jarr []) := by
  intro jp t h
  refine ⟨?_, rfl, rfl, rfl, rfl, rfl, rfl, rfl⟩
  unfold parse_analysis
  rw [h]

/-- C8 witness: the spec's concrete non-JSON response. -/
theorem parse_fallback_verbatim_witness :
    parse_analysis (fun _ => none) "I think this is probably true because...".toList
      = .ok (uncertainRecord "I think this is probably true because...".toList) ∧
    pyLookup kExplanation
      (uncertainRecord "I think this is probably true because...".toList)
      = some (.jstr "I think this is probably true because...".toList) ∧
    pyLookup kCredibility
      (uncertainRecord "I think this is probably true because...".toList)
      = some (.jint 5) ∧
    pyLookup kVerdict
      (uncertainRecord "I think this is probably true because...".toList)
      = some (.jstr "Uncertain".toList) ∧
    pyLookup kConfidence
      (uncertainRecord "I think this is probably true because...".toList)
      = some (.jstr "Medium".toList) ∧
    pyLookup kKeyFindings
      (uncertainRecord "I think this is probably true because...".toList)
      = some (.jarr []) ∧
    pyLookup kRedFlags
      (uncertainRecord "I think this is probably true because...".toList)
      = some (.jarr []) ∧
    pyLookup kSupporting
      (uncertainRecord "I think this is probably true because...".toList)
      = some (.jarr []) :=
  parse_fallback_verbatim (fun _ => none)
    "I think this is probably true because...".toList rfl

/-- C7: JSON extraction follows the fixed priority order: (a) when the text
decomposes around a first ```json marker and a next fence, the stripped
content between them is chosen; (b) otherwise, when both braces occur, the
span from the first opening brace to the last closing brace; (c) otherwise
the whole text verbatim. -/
theorem extract_json_priority :
    (∀ a m r : Str,
      (∀ i ∈ List.range a.length,
        jsonMarker.isPrefixOf ((a ++ jsonMarker ++ m ++ codeFence ++ r).drop i) = false) →
      (∀ j ∈ List.range m.length,
        codeFence.isPrefixOf
          ((a ++ jsonMarker ++ m ++ codeFence ++ r).drop (a.length + 7 + j)) = false) →
      extract_json (a ++ jsonMarker ++ m ++ codeFence ++ r) = pyStrip m) ∧
    (∀ u v w : Str,
      (∀ i ∈ List.range (u ++ openBrace :: v ++ closeBrace :: w).length,
        jsonMarker.isPrefixOf ((u ++ openBrace :: v ++ closeBrace :: w).drop i) = false) →
      openBrace ∉ u → closeBrace ∉ w →
      extract_json (u ++ openBrace :: v ++ closeBrace :: w)
        = openBrace :: (v ++ [closeBrace])) ∧
    (∀ t : Str,
      (∀ i ∈ List.range t.length, jsonMarker.isPrefixOf (t.drop i) = false) →
      (openBrace ∉ t ∨ closeBrace ∉ t) → extract_json t = t) := by
  refine ⟨?_, ?_, ?_⟩
  · intro a m r h1 h2
    exact extract_json_fence_case a m r
      (fun i hi => h1 i (List.mem_range.mpr hi))
      (fun j hj => h2 j (List.mem_range.mpr hj))
  · intro u v w h0 hu hw
    refine extract_json_braces_case u v w ?_ hu hw
    intro i
    by_cases hi : i < (u ++ openBrace :: v ++ closeBrace :: w).length
    · exact h0 i (List.mem_range.mpr hi)
    · rw [List.drop_eq_nil_of_le (by omega)]
      decide
  · intro t h0 hb
    refine extract_json_verbatim_case t ?_ hb
    intro i
    by_cases hi : i < t.length
    · exact h0 i (List.mem_range.mpr hi)
    · rw [List.drop_eq_nil_of_le (by omega)]
      decide

/-- C7 witness: the spec's fenced example — the inner object is recovered
and the fence markers are ignored. -/
theorem extract_json_priority_witness :
    extract_json
      "```json\n\x7b\"credibility_score\": 8, \"verdict\": \"Likely True\"\x7d\n```".toList
      = "\x7b\"credibility_score\": 8, \"verdict\": \"Likely True\"\x7d".toList :=
  extract_json_priority.1 []
    ('\n' :: ("\x7b\"credibility_score\": 8, \"verdict\": \"Likely True\"\x7d".toList ++ ['\n']))
    [] (by decide) (by decide)

/-- C5 (counterexample): the structured-search step stores one record per
response item without truncating to the limit, so a 2-item API response
with `limit = 1` makes `search` return 2 records — neither within the
claimed bound nor equal to the synthetic fallback. -/
theorem search_length_counterexample :
    search "key".toList "id".toList
      ⟨.ok [⟨some "t1".toList, some "l1".toList, some "s1".toList⟩,
            ⟨some "t2".toList, some "l2".toList, some "s2".toList⟩], none, none⟩
      "q".toList 1
      = .ok [⟨some "t1".toList, some "l1".toList, some "s1".toList⟩,
             ⟨some "t2".toList, some "l2".toList, some "s2".toList⟩] ∧
    ¬ ((1 ≤ ([⟨some "t1".toList, some "l1".toList, some "s1".toList⟩,
              ⟨some "t2".toList, some "l2".toList, some "s2".toList⟩] : List SearchResult).length ∧
        ([⟨some "t1".toList, some "l1".toList, some "s1".toList⟩,
          ⟨some "t2".toList, some "l2".toList, some "s2".toList⟩] : List SearchResult).length ≤ 1) ∨
        ([⟨some "t1".toList, some "l1".toList, some "s1".toList⟩,
          ⟨some "t2".toList, some "l2".toList, some "s2".toList⟩] : List SearchResult)
          = get_fallback_results "q".toList) :=
  ⟨rfl, by decide⟩

/-- C5 (amended): provided the structured-search API honors the requested
cap (the code passes `num = limit` but does not truncate the response),
every sequence `search` returns satisfies `1 ≤ len(E) ≤ limit` or equals
the fixed 3-item synthetic fallback for the query. -/
theorem search_length_bounds :
    ∀ (api_key search_id : Str) (env : SearchEnv) (query : Str) (limit : Nat)
      (E : List SearchResult),
      (∀ items, env.custom = .ok items → items.length ≤ limit) →
      search api_key search_id env query limit = .ok E →
      (1 ≤ E.length ∧ E.length ≤ limit) ∨ E = get_fallback_results query := by
  intro ak sid env q limit E hcap hE
  unfold search at hE
  split at hE
  · cases henv : env.custom with
    | error e =>
      rw [henv] at hE
      simp at hE
    | ok items =>
      rw [henv] at hE
      simp only [Except.ok.injEq] at hE
      subst hE
      have hr0len : (use_google_custom_search items limit).length ≤ limit := by
        unfold use_google_custom_search
        rw [List.length_map]
        exact hcap items henv
      rcases pyOrElse_cases (pyOrElse (pyOrElse (use_google_custom_search items limit)
          (search_google_simple env.gpage q limit))
          (search_duckduckgo env.dpage q limit)) (get_fallback_results q)
        with h3 | ⟨h3, hne3⟩
      · right
        rw [h3]
      · left
        rw [h3]
        refine ⟨List.length_pos.mpr hne3, ?_⟩
        rcases pyOrElse_cases (pyOrElse (use_google_custom_search items limit)
            (search_google_simple env.gpage q limit))
            (search_duckduckgo env.dpage q limit) with h2 | ⟨h2, _⟩
        · rw [h2]
          exact search_duckduckgo_len env.dpage q limit
        · rw [h2]
          rcases pyOrElse_cases (use_google_custom_search items limit)
              (search_google_simple env.gpage q limit) with hg | ⟨hg, _⟩
          · rw [hg]
            exact search_google_simple_len env.gpage q limit
          · rw [hg]
            exact hr0len
  · simp at hE

/-- C5 witness: with an empty API response and both scrapes unavailable,
`search` returns the synthetic fallback, satisfying the amended bound. -/
theorem search_length_bounds_witness :
    (1 ≤ (get_fallback_results "q".toList).length ∧
      (get_fallback_results "q".toList).length ≤ 5) ∨
    get_fallback_results "q".toList = get_fallback_results "q".toList :=
  search_length_bounds "key".toList "id".toList ⟨.ok [], none, none⟩ "q".toList 5
    (get_fallback_results "q".toList)
    (fun items h => by cases h; exact Nat.zero_le 5) rfl
